import Mathlib

/-!
Shallow embedding of the signal-ingestion core (signal_parser.py and
discord_reader.py).  Python regular expressions are translated into
dedicated matching functions with the same leftmost, greedy-with-
backtracking semantics as the concrete patterns in the source; Python
floats are modelled as exact rationals; fallible code returns Except.
Case folding and whitespace classes are modelled over ASCII, which covers
every character class the source patterns use on the analysed inputs.
-/

/-- Python regex class \s, restricted to the ASCII whitespace characters. -/
def is_py_space (c : Char) : Bool :=
  c = ' ' || c = '\t' || c = '\n' || c = '\r' || c = '\x0b' || c = '\x0c'

def digit_val (c : Char) : ℕ := c.toNat - 48

def digits_to_nat (ds : List Char) : ℕ :=
  ds.foldl (fun a c => 10 * a + digit_val c) 0

/-- Case-insensitive literal match (pattern given in lowercase), returning
the consumed input characters in their original case and the rest. -/
def match_lit_ci : List Char → List Char → Option (List Char × List Char)
  | [], s => some ([], s)
  | p :: ps, c :: cs =>
      if c.toLower = p then
        (match_lit_ci ps cs).map (fun r => (c :: r.1, r.2))
      else none
  | _ :: _, [] => none

/-- The NUM group of signal_parser.py, the pattern ([0-9]+(?:\.[0-9]+)?):
greedy digits, then an optional dot followed by greedy digits.  The value
is returned as an exact rational (Python parses the text with float). -/
def match_num (s : List Char) : Option (ℚ × List Char) :=
  match s.span Char.isDigit with
  | (ds, rest) =>
    if ds.isEmpty then none
    else
      match rest with
      | '.' :: r2 =>
        match r2.span Char.isDigit with
        | (fs, r3) =>
          if fs.isEmpty then some ((digits_to_nat ds : ℚ), rest)
          else some ((digits_to_nat ds : ℚ)
                      + (digits_to_nat fs : ℚ) / (10 : ℚ) ^ fs.length, r3)
      | _ => some ((digits_to_nat ds : ℚ), rest)

/-- Greedy munch of the class [:\s]. -/
def drop_colon_space (s : List Char) : List Char :=
  s.dropWhile (fun c => c = ':' || is_py_space c)

/-- Optional dollar sign, the pattern \$? of the price regexes. -/
def drop_dollar : List Char → List Char
  | '$' :: t => t
  | s => s

/-- RE_ENTRY attempted at one position: Entry[:\s]*\$?NUM (IGNORECASE). -/
def entry_at (s : List Char) : Option ℚ :=
  match match_lit_ci "entry".toList s with
  | none => none
  | some (_, r) => (match_num (drop_dollar (drop_colon_space r))).map Prod.fst

/-- RE_ENTRY.search: leftmost match of the entry pattern, first group. -/
def re_entry : List Char → Option ℚ
  | [] => none
  | c :: t =>
    match entry_at (c :: t) with
    | some v => some v
    | none => re_entry t

/-- The pattern \s+ : at least one whitespace character, greedy. -/
def space_plus (s : List Char) : Option (List Char) :=
  match s.span is_py_space with
  | (sp, r) => if sp.isEmpty then none else some r

/-- The group (LONG|SHORT) attempted at one position (IGNORECASE). -/
def side_word_at (s : List Char) : Option (List Char × List Char) :=
  match match_lit_ci "long".toList s with
  | some r => some r
  | none => match_lit_ci "short".toList s

/-- One alternative of RE_NEW_SIGNAL attempted at a position:
NEW SIGNAL|NEW TRADE SIGNAL|(?:LONG|SHORT)\s+SIGNAL|Trade\s+Signal. -/
def new_signal_at (s : List Char) : Bool :=
  (match_lit_ci "new signal".toList s).isSome
  || (match_lit_ci "new trade signal".toList s).isSome
  || (match side_word_at s with
      | some (_, r) =>
        ((space_plus r).bind (fun r2 => match_lit_ci "signal".toList r2)).isSome
      | none => false)
  || (match match_lit_ci "trade".toList s with
      | some (_, r) =>
        ((space_plus r).bind (fun r2 => match_lit_ci "signal".toList r2)).isSome
      | none => false)

/-- RE_NEW_SIGNAL.search as a Boolean: some position matches. -/
def re_new_signal : List Char → Bool
  | [] => false
  | c :: t => new_signal_at (c :: t) || re_new_signal t

/-- One alternative of RE_CANCELLED at a position:
TRADE CANCELLED|TRADE CLOSED (IGNORECASE). -/
def cancelled_at (s : List Char) : Bool :=
  (match_lit_ci "trade cancelled".toList s).isSome
  || (match_lit_ci "trade closed".toList s).isSome

/-- RE_CANCELLED.search as a Boolean. -/
def re_cancelled : List Char → Bool
  | [] => false
  | c :: t => cancelled_at (c :: t) || re_cancelled t

/-- The inline pattern of the hourglass status check at one position. -/
def hourglass_closed_at : List Char → Bool
  | c :: t =>
      c = '⏳' && (match_lit_ci "closed".toList (t.dropWhile is_py_space)).isSome
  | [] => false

/-- Search for the hourglass-closed status marker. -/
def re_hourglass_closed : List Char → Bool
  | [] => false
  | c :: t => hourglass_closed_at (c :: t) || re_hourglass_closed t

/-- The class [A-Z0-9] under IGNORECASE (ASCII letters and digits). -/
def is_alnum_ci (c : Char) : Bool :=
  ('A' ≤ c && c ≤ 'Z') || ('a' ≤ c && c ≤ 'z') || ('0' ≤ c && c ≤ '9')

/-- The dash class [-–—] of RE_SIDE_SYMBOL. -/
def is_dash (c : Char) : Bool := c = '-' || c = '–' || c = '—'

/-- RE_SIDE_SYMBOL attempted at one position:
(LONG|SHORT)\s+SIGNAL\s*[-–—]\s*([A-Z0-9]+)\s*/\s*([A-Z0-9]+) with
IGNORECASE; returns the three capture groups in their original case. -/
def side_symbol_at (s : List Char) : Option (String × String × String) :=
  match side_word_at s with
  | none => none
  | some (sw, r1) =>
    match space_plus r1 with
    | none => none
    | some r2 =>
      match match_lit_ci "signal".toList r2 with
      | none => none
      | some (_, r3) =>
        match r3.dropWhile is_py_space with
        | d :: r4 =>
          if is_dash d then
            match (r4.dropWhile is_py_space).span is_alnum_ci with
            | (b, r5) =>
              if b.isEmpty then none
              else
                match r5.dropWhile is_py_space with
                | '/' :: r6 =>
                  match (r6.dropWhile is_py_space).span is_alnum_ci with
                  | (qf, _) =>
                    if qf.isEmpty then none
                    else some (String.mk sw, String.mk b, String.mk qf)
                | _ => none
          else none
        | [] => none

/-- RE_SIDE_SYMBOL.search: leftmost match, three groups. -/
def re_side_symbol : List Char → Option (String × String × String)
  | [] => none
  | c :: t =>
    match side_symbol_at (c :: t) with
    | some r => some r
    | none => re_side_symbol t

/-- Continuation [:\s]*\$?NUM shared by the TP pattern. -/
def tp_tail (s : List Char) : Option (ℚ × List Char) :=
  match_num (drop_dollar (drop_colon_space s))

/-- RE_TP attempted at one position: TP(\d+)[:\s]*\$?NUM (IGNORECASE).
The greedy (\d+) group backtracks one digit when the continuation fails
right after it (e.g. on TP10.5 the match is index 1, price 0.5), which is
the only backtracking the pattern can need. -/
def tp_at (s : List Char) : Option (ℕ × ℚ × List Char) :=
  match match_lit_ci "tp".toList s with
  | none => none
  | some (_, r1) =>
    match r1.span Char.isDigit with
    | (ds, r2) =>
      if ds.isEmpty then none
      else
        match tp_tail r2 with
        | some (p, r3) => some (digits_to_nat ds, p, r3)
        | none =>
          match ds with
          | [] => none
          | [_] => none
          | _ =>
            match tp_tail (ds.drop (ds.length - 1) ++ r2) with
            | some (p, r3) => some (digits_to_nat (ds.take (ds.length - 1)), p, r3)
            | none => none

/-- RE_TP.finditer: all non-overlapping matches, scanning left to right.
Fuel is the length of the input, which each step strictly decreases. -/
def tp_find_aux : ℕ → List Char → List (ℕ × ℚ)
  | 0, _ => []
  | _ + 1, [] => []
  | fuel + 1, c :: t =>
    match tp_at (c :: t) with
    | some (i, p, rest) => (i, p) :: tp_find_aux fuel rest
    | none => tp_find_aux fuel t

def tp_find (s : List Char) : List (ℕ × ℚ) := tp_find_aux s.length s

/-- One iteration of the TP loop body: pad the list with the sentinel 0
while it is shorter than idx, then assign position idx - 1.  With idx = 0
Python evaluates tps[-1] = price, which on an empty list raises
IndexError; that exceptional outcome is the error case. -/
def set_tp (tps : List ℚ) (idx : ℕ) (price : ℚ) : Except Unit (List ℚ) :=
  if idx = 0 then
    match tps with
    | [] => Except.error ()
    | _ :: _ => Except.ok (tps.set (tps.length - 1) price)
  else
    Except.ok ((tps ++ List.replicate (idx - tps.length) 0).set (idx - 1) price)

/-- The TP loop of parse_signal over the finditer matches. -/
def build_tps : List (ℕ × ℚ) → List ℚ → Except Unit (List ℚ)
  | [], tps => Except.ok tps
  | (i, p) :: ms, tps =>
    match set_tp tps i p with
    | Except.error e => Except.error e
    | Except.ok tps2 => build_tps ms tps2

/-- Continuation [:\s]*\$?NUM of the DCA pattern, value only. -/
def dca_tail (s : List Char) : Option ℚ :=
  (match_num (drop_dollar (drop_colon_space s))).map Prod.fst

/-- The part \s*1?[:\s]*\$?NUM of RE_DCA: the optional literal 1 is
greedy and falls back to not being consumed when the continuation fails
after it (regex backtracking). -/
def dca_after_hash (s : List Char) : Option ℚ :=
  let r := s.dropWhile is_py_space
  match r with
  | '1' :: t =>
    match dca_tail t with
    | some v => some v
    | none => dca_tail r
  | _ => dca_tail r

/-- RE_DCA attempted at one position: DCA\s*#?\s*1?[:\s]*\$?NUM with
IGNORECASE; the optional hash also backtracks when taken unsuccessfully. -/
def dca_at (s : List Char) : Option ℚ :=
  match match_lit_ci "dca".toList s with
  | none => none
  | some (_, r1) =>
    let r2 := r1.dropWhile is_py_space
    match r2 with
    | '#' :: t =>
      match dca_after_hash t with
      | some v => some v
      | none => dca_after_hash r2
    | _ => dca_after_hash r2

/-- RE_DCA.search: leftmost match, first group. -/
def re_dca : List Char → Option ℚ
  | [] => none
  | c :: t =>
    match dca_at (c :: t) with
    | some v => some v
    | none => re_dca t

/-- RE_SL attempted at one position: Stop\s*Loss[:\s]*\$?NUM, IGNORECASE. -/
def sl_at (s : List Char) : Option ℚ :=
  match match_lit_ci "stop".toList s with
  | none => none
  | some (_, r1) =>
    match match_lit_ci "loss".toList (r1.dropWhile is_py_space) with
    | none => none
    | some (_, r2) => (match_num (drop_dollar (drop_colon_space r2))).map Prod.fst

/-- RE_SL.search: leftmost match, first group. -/
def re_sl : List Char → Option ℚ
  | [] => none
  | c :: t =>
    match sl_at (c :: t) with
    | some v => some v
    | none => re_sl t

/-- Python str.upper over the ASCII range, the case normalization used
by parse_signal on the captured groups and the configured quote. -/
def py_upper (s : String) : String := String.mk (s.toList.map Char.toUpper)

/-- The parse result dictionary of signal_parser.parse_signal. -/
structure Signal where
  base : String
  symbol : String
  side : String
  trigger : ℚ
  tp_prices : List ℚ
  dca_prices : List ℚ
  sl_price : Option ℚ
  raw : String
deriving DecidableEq

/-- parse_signal of signal_parser.py.  The Ok value models the Python
return value (a Signal or None); the error value models the IndexError
that the TP loop can raise through tps[-1] on an empty list. -/
def parse_signal (text : String) (quote : String) : Except Unit (Option Signal) :=
  let s := text.toList
  if !(re_new_signal s) then Except.ok none
  else if re_cancelled s then Except.ok none
  else if re_hourglass_closed s then Except.ok none
  else
    match re_side_symbol s with
    | none => Except.ok none
    | some (side_word, base_raw, quote_raw) =>
      let base := py_upper base_raw
      let quote_found := py_upper quote_raw
      if quote_found ≠ py_upper quote then Except.ok none
      else
        let side := if py_upper side_word = "SHORT" then "sell" else "buy"
        let symbol := base ++ quote
        match re_entry s with
        | none => Except.ok none
        | some trigger =>
          match build_tps (tp_find s) [] with
          | Except.error e => Except.error e
          | Except.ok tps0 =>
            let tps := tps0.filter (fun p => decide (0 < p))
            if tps = [] then Except.ok none
            else
              let dcas : List ℚ :=
                match re_dca s with
                | some d => if 0 < d then [d] else []
                | none => []
              Except.ok (some {
                base := base, symbol := symbol, side := side, trigger := trigger,
                tp_prices := tps, dca_prices := dcas, sl_price := re_sl s,
                raw := String.mk (s.take 500) })

/-- Modelled: stands for the Python repr of a float used by the f-string
of signal_hash; every verified property depends only on this being a
function of the rational value. -/
def py_float_repr (q : ℚ) : String :=
  toString q.num ++ "/" ++ toString q.den

/-- Python str of a list of floats, as interpolated by the f-string. -/
def py_list_repr (xs : List ℚ) : String :=
  "[" ++ String.intercalate ", " (xs.map py_float_repr) ++ "]"

/-- The core f-string of signal_hash: symbol, side, trigger, tp_prices
and dca_prices joined by the bar delimiter. -/
def core_string (sig : Signal) : String :=
  sig.symbol ++ "|" ++ sig.side ++ "|" ++ py_float_repr sig.trigger
    ++ "|" ++ py_list_repr sig.tp_prices ++ "|" ++ py_list_repr sig.dca_prices

/-- Modelled: stands for hashlib.md5 hexdigest, a deterministic 128-bit
digest of the encoded core string; every verified property depends only
on this being a function of its input string. -/
def md5_model (s : String) : String :=
  String.mk (Nat.toDigits 16
    (s.toList.foldl (fun a c => (a * 65599 + c.toNat) % (2 ^ 128)) 0))

/-- signal_hash of signal_parser.py. -/
def signal_hash (sig : Signal) : String := md5_model (core_string sig)

/-! Embedding of discord_reader.py.  RawMessage and Embed model the JSON
message objects; an absent string field and the empty-string default of
dict.get coincide, so optional text fields are plain strings.  The
message identifier and the ISO timestamp keep their absent case. -/

structure EmbedField where
  name : String
  value : String
deriving DecidableEq

structure Embed where
  title : String
  description : String
  fields : List EmbedField
  footer : String
deriving DecidableEq

structure RawMessage where
  id : Option String
  content : String
  embeds : List Embed
  timestamp : Option String
deriving DecidableEq

/-- Outcome of one requests.get attempt inside fetch_after: either the
call raises a requests.RequestException at transport level, or it yields
a response with a status code, the retry_after field of its JSON body
when present, and the message list of its JSON body. -/
inductive AttemptOutcome where
  | raised : AttemptOutcome
  | response (status : ℕ) (retry_after_field : Option ℚ) (body : List RawMessage) : AttemptOutcome
deriving DecidableEq

/-- Observable result of one fetch_after call: the returned batch, how
many HTTP requests were issued, and the sleeps performed (in seconds). -/
structure FetchTrace where
  batch : List RawMessage
  requests : ℕ
  sleeps : List ℚ
deriving DecidableEq

/-- The retry loop of fetch_after, one list entry per remaining attempt
index.  A 429 sleeps the server-suggested duration (default 5) plus one
second and consumes an attempt.  raise_for_status raises HTTPError for
any 4xx or 5xx status; HTTPError is a subclass of RequestException, so
it is caught by the same handler as a transport failure, which sleeps 3
seconds except on the final attempt and then retries.  An exhausted loop
returns the empty batch. -/
def fetch_loop (env : ℕ → AttemptOutcome) : List ℕ → ℕ → List ℚ → FetchTrace
  | [], reqs, sleeps => { batch := [], requests := reqs, sleeps := sleeps }
  | attempt :: rest, reqs, sleeps =>
    match env attempt with
    | AttemptOutcome.raised =>
        fetch_loop env rest (reqs + 1)
          (sleeps ++ if attempt < 2 then [3] else [])
    | AttemptOutcome.response status retry_after_field body =>
        if status = 429 then
          fetch_loop env rest (reqs + 1) (sleeps ++ [retry_after_field.getD 5 + 1])
        else if 400 ≤ status ∧ status < 600 then
          fetch_loop env rest (reqs + 1)
            (sleeps ++ if attempt < 2 then [3] else [])
        else
          { batch := body, requests := reqs + 1, sleeps := sleeps }

/-- fetch_after of discord_reader.py.  The URL construction and headers
are connection-level detail outside the model; env gives each attempt's
remote outcome, and the function performs up to 3 total attempts. -/
def fetch_after (env : ℕ → AttemptOutcome) : FetchTrace :=
  fetch_loop env [0, 1, 2] 0 []

/-- Modelled: stands for the named-entity part of Python html.unescape,
restricted to the standard XML entities; other names are left intact. -/
def entity_chars (name : List Char) : Option (List Char) :=
  if name = "amp".toList then some ['&']
  else if name = "lt".toList then some ['<']
  else if name = "gt".toList then some ['>']
  else if name = "quot".toList then some ['"']
  else none

def is_hex_digit (c : Char) : Bool :=
  c.isDigit || ('a' ≤ c && c ≤ 'f') || ('A' ≤ c && c ≤ 'F')

def hex_val (c : Char) : ℕ :=
  if c.isDigit then c.toNat - 48
  else if 'a' ≤ c && c ≤ 'f' then c.toNat - 87
  else c.toNat - 55

def hex_to_nat (ds : List Char) : ℕ :=
  ds.foldl (fun a c => 16 * a + hex_val c) 0

/-- A character reference body between the ampersand and the semicolon:
a named entity, a decimal reference, or a hexadecimal reference. -/
def reference_chars (name : List Char) : Option (List Char) :=
  match name with
  | '#' :: 'x' :: ds =>
      if ds ≠ [] ∧ ds.all is_hex_digit then some [Char.ofNat (hex_to_nat ds)] else none
  | '#' :: 'X' :: ds =>
      if ds ≠ [] ∧ ds.all is_hex_digit then some [Char.ofNat (hex_to_nat ds)] else none
  | '#' :: ds =>
      if ds ≠ [] ∧ ds.all Char.isDigit then some [Char.ofNat (digits_to_nat ds)] else none
  | _ => entity_chars name

/-- Modelled: stands for html.unescape over the joined text, covering
semicolon-terminated references of at most 32 characters. -/
def unescape_chars : ℕ → List Char → List Char
  | 0, s => s
  | _ + 1, [] => []
  | fuel + 1, '&' :: t =>
    (match t.span (fun c => c ≠ ';') with
     | (name, ';' :: rest) =>
        if name.length ≤ 32 then
          match reference_chars name with
          | some cs => cs ++ unescape_chars fuel rest
          | none => '&' :: unescape_chars fuel t
        else '&' :: unescape_chars fuel t
     | _ => '&' :: unescape_chars fuel t)
  | fuel + 1, c :: t => c :: unescape_chars fuel t

def html_unescape (s : List Char) : List Char := unescape_chars s.length s

/-- A user or role mention token at a position: the pattern <@[!&]?\d+>. -/
def mention_token : List Char → Option (List Char)
  | '<' :: '@' :: t =>
    let t1 := match t with
      | '!' :: u => u
      | '&' :: u => u
      | u => u
    (match t1.span Char.isDigit with
     | (ds, '>' :: rest) => if ds.isEmpty then none else some rest
     | _ => none)
  | _ => none

/-- A channel mention token at a position: the pattern <#\d+>. -/
def channel_token : List Char → Option (List Char)
  | '<' :: '#' :: t =>
    (match t.span Char.isDigit with
     | (ds, '>' :: rest) => if ds.isEmpty then none else some rest
     | _ => none)
  | _ => none

/-- The word class \w of the emoji pattern, over ASCII. -/
def is_word_char (c : Char) : Bool := is_alnum_ci c || c = '_'

/-- The tail \w+:\d+> of the custom emoji token. -/
def emoji_tail (s : List Char) : Option (List Char) :=
  match s.span is_word_char with
  | (ws, ':' :: r1) =>
    if ws.isEmpty then none
    else
      match r1.span Char.isDigit with
      | (ds, '>' :: rest) => if ds.isEmpty then none else some rest
      | _ => none
  | _ => none

/-- A custom emoji token at a position: the pattern <a?:\w+:\d+>, with
the case-sensitive optional animation marker. -/
def emoji_token : List Char → Option (List Char)
  | '<' :: 'a' :: ':' :: t => emoji_tail t
  | '<' :: ':' :: t => emoji_tail t
  | _ => none

/-- One re.sub pass deleting every non-overlapping occurrence of the
token recognised by tok, scanning left to right. -/
def sub_tokens (tok : List Char → Option (List Char)) : ℕ → List Char → List Char
  | 0, s => s
  | _ + 1, [] => []
  | fuel + 1, c :: t =>
    match tok (c :: t) with
    | some rest => sub_tokens tok fuel rest
    | none => c :: sub_tokens tok fuel t

/-- Python str.strip with no argument, over the ASCII whitespace set. -/
def py_strip (s : List Char) : List Char :=
  ((s.dropWhile is_py_space).reverse.dropWhile is_py_space).reverse

/-- The clean-up tail of extract_text: entity decoding, then the three
re.sub deletions in source order, then the final strip. -/
def clean_text (t : String) : String :=
  let u := html_unescape t.toList
  let u := sub_tokens mention_token u.length u
  let u := sub_tokens channel_token u.length u
  let u := sub_tokens emoji_token u.length u
  String.mk (py_strip u)

/-- The parts-building loop body of extract_text for one embed field. -/
def field_parts (parts : List String) (f : EmbedField) : List String :=
  let parts := if f.name ≠ "" then parts ++ [f.name] else parts
  if f.value ≠ "" then parts ++ [f.value] else parts

/-- The parts-building loop body of extract_text for one embed. -/
def embed_parts (parts : List String) (e : Embed) : List String :=
  let parts := if e.title ≠ "" then parts ++ [e.title] else parts
  let parts := if e.description ≠ "" then parts ++ [e.description] else parts
  let parts := e.fields.foldl field_parts parts
  if e.footer ≠ "" then parts ++ [e.footer] else parts

/-- The ordered fragment list built by extract_text before joining. -/
def extract_parts (msg : RawMessage) : List String :=
  msg.embeds.foldl embed_parts (if msg.content ≠ "" then [msg.content] else [])

/-- extract_text of discord_reader.py: join the truthy parts with the
fixed bar delimiter, then run the clean-up tail. -/
def extract_text (msg : RawMessage) : String :=
  clean_text (String.intercalate " | "
    ((extract_parts msg).filter (fun p => decide (p ≠ ""))))

/-- Python int() digit run after the optional sign: digits with single
underscores allowed between digits. -/
def py_digits_aux : ℕ → List Char → Option ℕ
  | acc, [] => some acc
  | acc, '_' :: c :: r =>
      if c.isDigit then py_digits_aux (10 * acc + digit_val c) r else none
  | acc, c :: r =>
      if c.isDigit then py_digits_aux (10 * acc + digit_val c) r else none

def py_digits : List Char → Option ℕ
  | [] => none
  | c :: r => if c.isDigit then py_digits_aux (digit_val c) r else none

/-- Python int(str): surrounding whitespace stripped, optional sign,
then an underscore-grouped digit run; None models the ValueError. -/
def py_int_of_string (s : String) : Option ℤ :=
  let t := ((s.toList.dropWhile is_py_space).reverse.dropWhile is_py_space).reverse
  match t with
  | '+' :: r => (py_digits r).map (fun n => (n : ℤ))
  | '-' :: r => (py_digits r).map (fun n => -(n : ℤ))
  | r => (py_digits r).map (fun n => (n : ℤ))

/-- Days from 1970-01-01 of a proleptic Gregorian civil date. -/
def days_from_civil (y : ℤ) (m d : ℕ) : ℤ :=
  let y2 : ℤ := if m ≤ 2 then y - 1 else y
  let era : ℤ := Int.fdiv y2 400
  let yoe : ℤ := y2 - era * 400
  let mp : ℤ := if 2 < m then (m : ℤ) - 3 else (m : ℤ) + 9
  let doy : ℤ := Int.fdiv (153 * mp + 2) 5 + (d : ℤ) - 1
  let doe : ℤ := yoe * 365 + Int.fdiv yoe 4 - Int.fdiv yoe 100 + doy
  era * 146097 + doe - 719468

def is_leap (y : ℤ) : Bool :=
  (y % 4 = 0 && y % 100 ≠ 0) || y % 400 = 0

def days_in_month (y : ℤ) (m : ℕ) : ℕ :=
  if m = 2 then (if is_leap y then 29 else 28)
  else if m = 4 ∨ m = 6 ∨ m = 9 ∨ m = 11 then 30
  else 31

def two_digits : List Char → Option (ℕ × List Char)
  | a :: b :: r =>
      if a.isDigit ∧ b.isDigit then some (10 * digit_val a + digit_val b, r) else none
  | _ => none

def four_digits (s : List Char) : Option (ℕ × List Char) :=
  match two_digits s with
  | some (hi, r1) =>
    (two_digits r1).map (fun lo => (100 * hi + lo.1, lo.2))
  | none => none

/-- The optional fractional part .ffffff of an ISO time. -/
def iso_fraction : List Char → ℚ × List Char
  | '.' :: r =>
    (match r.span Char.isDigit with
     | (ds, rest) =>
       if ds.isEmpty then (0, '.' :: r)
       else ((digits_to_nat ds : ℚ) / (10 : ℚ) ^ ds.length, rest))
  | s => (0, s)

/-- The time-of-day part HH:MM[:SS[.ffffff]] of an ISO string. -/
def iso_time (s : List Char) : Option (ℚ × List Char) :=
  match two_digits s with
  | none => none
  | some (h, r1) =>
    match r1 with
    | ':' :: r2 =>
      (match two_digits r2 with
       | none => none
       | some (mi, r3) =>
         if h < 24 ∧ mi < 60 then
           match r3 with
           | ':' :: r4 =>
             (match two_digits r4 with
              | none => none
              | some (sec, r5) =>
                if sec < 60 then
                  match iso_fraction r5 with
                  | (fr, r6) => some ((h * 3600 + mi * 60 + sec : ℚ) + fr, r6)
                else none)
           | _ => some ((h * 3600 + mi * 60 : ℚ), r3)
         else none)
    | _ => none

/-- Modelled: stands for datetime.fromisoformat followed by timestamp();
covers the date, an optional time after a one-character separator, and
an optional UTC offset.  A naive value (no offset) is interpreted as
UTC: its Python value depends on the host timezone and no verified
property touches it. -/
def iso_to_unix (s : List Char) : Option ℚ :=
  match four_digits s with
  | none => none
  | some (y, r1) =>
    match r1 with
    | '-' :: r2 =>
      (match two_digits r2 with
       | none => none
       | some (mo, r3) =>
         match r3 with
         | '-' :: r4 =>
           (match two_digits r4 with
            | none => none
            | some (d, r5) =>
              if 1 ≤ mo ∧ mo ≤ 12 ∧ 1 ≤ d ∧ d ≤ days_in_month (y : ℤ) mo then
                let base : ℚ := (days_from_civil (y : ℤ) mo d : ℚ) * 86400
                match r5 with
                | [] => some base
                | _ :: r6 =>
                  match iso_time r6 with
                  | none => none
                  | some (tod, r7) =>
                    match r7 with
                    | [] => some (base + tod)
                    | '+' :: r8 =>
                      (match iso_time r8 with
                       | some (off, []) => some (base + tod - off)
                       | _ => none)
                    | '-' :: r8 =>
                      (match iso_time r8 with
                       | some (off, []) => some (base + tod + off)
                       | _ => none)
                    | _ => none
              else none)
         | _ => none)
    | _ => none

/-- The fallback branch of message_timestamp_unix: a truthy timestamp
string has its Z suffix rewritten to a zero offset and is parsed as an
ISO date-time; failure yields the absent result. -/
def ts_fallback (msg : RawMessage) : Option ℚ :=
  match msg.timestamp with
  | none => none
  | some ts =>
    if ts = "" then none
    else iso_to_unix ((ts.replace "Z" "+00:00").toList)

/-- message_timestamp_unix of discord_reader.py.  The primary path
parses the identifier with int(); a parse failure is the caught
ValueError.  A non-zero identifier is shifted right 22 bits (Python
floor shift, fdiv by 2 ^ 22) and offset by the fixed epoch; the
millisecond value is divided by 1000. -/
def message_timestamp_unix (msg : RawMessage) : Option ℚ :=
  match (match msg.id with
         | none => some (0 : ℤ)
         | some s => py_int_of_string s) with
  | some n =>
      if n = 0 then ts_fallback msg
      else some (((Int.fdiv n (Int.ofNat (2 ^ 22)) + 1420070400000 : ℤ) : ℚ) / 1000)
  | none => ts_fallback msg

/-! Spec-side refinement definition for the normalizer, and the concrete
inputs and records used by the claim theorems. -/

/-- A fragment kept when non-empty, skipped when empty. -/
def opt_frag (s : String) : List String := if s = "" then [] else [s]

/-- Fragments contributed by one embed field per the spec wording:
name then value, in order, empty fragments skipped. -/
def field_frag (f : EmbedField) : List String :=
  opt_frag f.name ++ opt_frag f.value

/-- Fragments contributed by one embed per the spec wording: title,
description, each field in order, footer text, empties skipped. -/
def embed_frag (e : Embed) : List String :=
  opt_frag e.title ++ opt_frag e.description
    ++ e.fields.flatMap field_frag ++ opt_frag e.footer

/-- The ordered fragment list described by the specification: message
content, then for each embed in order its fragments, empties skipped. -/
def spec_fragments (msg : RawMessage) : List String :=
  opt_frag msg.content ++ msg.embeds.flatMap embed_frag

/-- The Scenario A input of the specification: its fragments in order,
which include an accepted new-signal phrase (SHORT SIGNAL) and no
cancellation phrase. -/
def scenario_a_text : String :=
  "SHORT SIGNAL - OL/USDT\nEntry: 0.01740\nTP1: 0.01719\nTP2: 0.01698\nTP3: 0.01670\nTP4: 0.01601\nDCA1: 0.01800\nStop Loss: 0.01846"

/-- The Signal that Scenario A is specified to produce. -/
def scenario_a_signal : Signal :=
  { base := "OL", symbol := "OLUSDT", side := "sell", trigger := 0.01740,
    tp_prices := [0.01719, 0.01698, 0.01670, 0.01601],
    dca_prices := [0.01800], sl_price := some 0.01846,
    raw := scenario_a_text }

/-- The Signal produced from Scenario A when the configured quote is
supplied in lowercase. -/
def scenario_a_lower_signal : Signal :=
  { base := "OL", symbol := "OLusdt", side := "sell", trigger := 0.01740,
    tp_prices := [0.01719, 0.01698, 0.01670, 0.01601],
    dca_prices := [0.01800], sl_price := some 0.01846,
    raw := scenario_a_text }

/-- A well-formed signal text whose only TP label carries rank 0; the
TP loop then executes tps[-1] = price on an empty list. -/
def tp_zero_text : String := "SHORT SIGNAL - OL/USDT\nEntry: 1\nTP0: 0.5"

/-- A signal text whose only TP price is 0, so the compaction leaves no
positive take-profit price. -/
def zero_tp_text : String := "SHORT SIGNAL - OL/USDT\nEntry: 1\nTP1: 0"

/-- A well-formed signal text whose only averaging-level label has rank
2; RE_DCA then captures the rank digit as the price. -/
def dca_rank_text : String :=
  "SHORT SIGNAL - OL/USDT\nEntry: 1\nTP1: 0.9\nDCA2: 0.5"

/-- The Signal parsed from dca_rank_text. -/
def dca_rank_signal : Signal :=
  { base := "OL", symbol := "OLUSDT", side := "sell", trigger := 1,
    tp_prices := [0.9], dca_prices := [2], sl_price := none,
    raw := dca_rank_text }

/-- A remote environment whose every attempt yields a 404 response. -/
def not_found_env : ℕ → AttemptOutcome :=
  fun _ => AttemptOutcome.response 404 none []

/-- A message carrying the snowflake identifier of the specification's
decoding example. -/
def snowflake_message : RawMessage :=
  { id := some "1234567890123456789", content := "", embeds := [],
    timestamp := none }

/-- Two signals agreeing on every fingerprint field and differing in the
stop loss and the raw text. -/
def hash_sig_a : Signal :=
  { base := "OL", symbol := "OLUSDT", side := "sell", trigger := 1,
    tp_prices := [2], dca_prices := [], sl_price := some 3, raw := "x" }

def hash_sig_b : Signal :=
  { base := "OL", symbol := "OLUSDT", side := "sell", trigger := 1,
    tp_prices := [2], dca_prices := [], sl_price := none, raw := "y" }

/-! Claim theorems.  The local attribute lets definitional evaluation see
through the rational arithmetic operations, which are sealed for
rewriting purposes only. -/

section

attribute [local semireducible] Rat.add Rat.mul Rat.inv Rat.sub Rat.ofScientific

set_option maxRecDepth 8000 in
/-- C1: Scenario A parses to the expected Signal: base OL, symbol OLUSDT,
side sell, trigger 0.01740, the four TP prices in rank order, the single
DCA price 0.01800 and the stop loss 0.01846. -/
theorem c1_scenario_a :
    parse_signal scenario_a_text "USDT" = Except.ok (some scenario_a_signal) := by
  rfl

/-- C3 evaluation at the failing input: a TP label of rank 0 makes the TP
loop execute tps[-1] on an empty list, so parse_signal raises IndexError
instead of resolving to the absent result as the claim requires. -/
theorem c3_tp_zero_raises :
    parse_signal tp_zero_text "USDT" = Except.error () := by
  rfl

/-- C10: on a well-formed signal whose only averaging label is DCA2, the
parse yields dca_prices [2] (the rank digit read as the price), not [0.5]
and not the empty list. -/
theorem c10_dca_rank :
    parse_signal dca_rank_text "USDT" = Except.ok (some dca_rank_signal) := by
  rfl

set_option maxRecDepth 8000 in
/-- C5 counterexample: with configured quote usdt the parse succeeds and
the symbol is OLusdt, not the all-uppercase OLUSDT the claim requires. -/
theorem c5_counterexample :
    (parse_signal scenario_a_text "usdt").map (Option.map Signal.symbol)
      = Except.ok (some "OLusdt") ∧ ("OLusdt" : String) ≠ "OLUSDT" := by
  exact ⟨rfl, by decide⟩

/-- C2 counterexample: with every attempt answering 404, fetch_after
issues 3 requests (so it retries rather than failing on the first), and
returns the ordinary empty batch rather than surfacing a failure. -/
theorem c2_counterexample :
    (fetch_after not_found_env).requests = 3
      ∧ (fetch_after not_found_env).requests ≠ 1
      ∧ (fetch_after not_found_env).batch = [] := by
  refine ⟨rfl, by decide, rfl⟩

/-- C6: the fingerprint is computed from symbol, side, trigger, tp_prices
and dca_prices only; two Signals agreeing there hash alike, so stop loss
and raw text can never change the fingerprint. -/
theorem c6_hash_determinism :
    ∀ s1 s2 : Signal, s1.symbol = s2.symbol → s1.side = s2.side →
      s1.trigger = s2.trigger → s1.tp_prices = s2.tp_prices →
      s1.dca_prices = s2.dca_prices → signal_hash s1 = signal_hash s2 := by
  intro s1 s2 h1 h2 h3 h4 h5
  unfold signal_hash core_string
  rw [h1, h2, h3, h4, h5]

theorem c6_hash_determinism_witness :
    signal_hash hash_sig_a = signal_hash hash_sig_b :=
  c6_hash_determinism hash_sig_a hash_sig_b rfl rfl rfl rfl rfl

/-- C2 amended: a non-429 unsuccessful status raises HTTPError, which is
a RequestException and is caught like a transport failure; with every
attempt failing that way the call performs all 3 requests, sleeps 3
seconds after each non-final attempt, and returns the empty batch
instead of surfacing a hard failure. -/
theorem c2_retry_on_error_status :
    ∀ (env : ℕ → AttemptOutcome) (st : ℕ), 400 ≤ st → st < 600 → st ≠ 429 →
      (∀ i, env i = AttemptOutcome.response st none []) →
      fetch_after env = { batch := [], requests := 3, sleeps := [3, 3] } := by
  intro env st h4 h6 h429 henv
  simp only [fetch_after, fetch_loop, henv]
  simp only [if_neg h429, if_pos (show 400 ≤ st ∧ st < 600 from ⟨h4, h6⟩)]
  norm_num

theorem c2_retry_on_error_status_witness :
    fetch_after not_found_env = { batch := [], requests := 3, sleeps := [3, 3] } :=
  c2_retry_on_error_status not_found_env 404 (by decide) (by decide) (by decide)
    (fun _ => rfl)

/-- C8: a message whose identifier parses as a non-zero unsigned integer
n takes its timestamp from the snowflake alone, ((n >>> 22) +
1420070400000) / 1000 seconds, whatever the timestamp field holds. -/
theorem c8_snowflake :
    ∀ (msg : RawMessage) (s : String) (n : ℕ), msg.id = some s →
      py_int_of_string s = some (n : ℤ) → n ≠ 0 →
      message_timestamp_unix msg
        = some ((((n >>> 22) + 1420070400000 : ℕ) : ℚ) / 1000) := by
  intro msg s n hid hp hn
  simp only [message_timestamp_unix, hid, hp]
  have hz : ¬((n : ℤ) = 0) := by exact_mod_cast hn
  rw [if_neg hz]
  have hfd2 : (Int.fdiv ((n : ℕ) : ℤ) (Int.ofNat (2 ^ 22)) + 1420070400000 : ℤ)
      = (((n >>> 22) + 1420070400000 : ℕ) : ℤ) := by
    rw [Nat.shiftRight_eq_div_pow]
    cases n with
    | zero => rfl
    | succ k =>
      show ((((k + 1) / 2 ^ 22 : ℕ) : ℤ) + 1420070400000 : ℤ) = _
      push_cast
      ring
  rw [hfd2, Int.cast_natCast]

theorem c8_snowflake_witness :
    message_timestamp_unix snowflake_message
      = some ((((1234567890123456789 >>> 22) + 1420070400000 : ℕ) : ℚ) / 1000) :=
  c8_snowflake snowflake_message "1234567890123456789" 1234567890123456789
    rfl rfl (by decide)

end

section

attribute [local semireducible] Rat.add Rat.mul Rat.inv Rat.sub Rat.ofScientific

/-- Inversion of a successful parse: the constructed Signal carries the
compacted positive TP list (checked non-empty) and composes its symbol
from the stored base and the configured quote as supplied. -/
lemma parse_signal_ok_some (t q : String) (sig : Signal)
    (h : parse_signal t q = Except.ok (some sig)) :
    (sig.tp_prices ≠ [] ∧ ∀ p ∈ sig.tp_prices, 0 < p)
      ∧ sig.symbol = sig.base ++ q := by
  simp only [parse_signal] at h
  split at h
  · simp at h
  split at h
  · simp at h
  split at h
  · simp at h
  split at h
  · simp at h
  split at h
  · simp at h
  split at h
  · simp at h
  split at h
  · simp at h
  split at h
  · simp at h
  rename_i hne
  simp only [Except.ok.injEq, Option.some.injEq] at h
  subst h
  refine ⟨⟨hne, ?_⟩, rfl⟩
  intro p hp
  have hm := List.mem_filter.mp hp
  exact of_decide_eq_true hm.2

/-- C4: every successful parse returns a non-empty list of strictly
positive TP prices, and an extraction with no positive TP price makes
the parse resolve to the absent result. -/
theorem c4_tp_positive :
    (∀ (t q : String) (sig : Signal), parse_signal t q = Except.ok (some sig) →
      sig.tp_prices ≠ [] ∧ ∀ p ∈ sig.tp_prices, 0 < p)
    ∧ (∀ (t q : String) (tps0 : List ℚ),
        build_tps (tp_find t.toList) [] = Except.ok tps0 →
        tps0.filter (fun p => decide (0 < p)) = [] →
        parse_signal t q = Except.ok none) := by
  constructor
  · intro t q sig h
    exact (parse_signal_ok_some t q sig h).1
  · intro t q tps0 hb hf
    simp only [parse_signal]
    split
    · rfl
    split
    · rfl
    split
    · rfl
    split
    · rfl
    split
    · rfl
    split
    · rfl
    split
    · rename_i e heq
      rw [hb] at heq
      simp at heq
    · rename_i tps1 heq
      rw [hb] at heq
      simp only [Except.ok.injEq] at heq
      subst heq
      split
      · rfl
      · rename_i hne
        exact absurd hf hne

set_option maxRecDepth 8000 in
theorem c4_tp_positive_witness :
    (scenario_a_signal.tp_prices ≠ [] ∧ ∀ p ∈ scenario_a_signal.tp_prices, 0 < p)
      ∧ parse_signal zero_tp_text "USDT" = Except.ok none :=
  ⟨c4_tp_positive.1 scenario_a_text "USDT" scenario_a_signal (by rfl),
   c4_tp_positive.2 zero_tp_text "USDT" [0] (by rfl) (by rfl)⟩

/-- C5 amended: the symbol of every successfully parsed Signal is the
stored (uppercased) base followed by the configured quote exactly as
supplied; it is entirely uppercase only when the quote is. -/
theorem c5_symbol_amended :
    ∀ (t q : String) (sig : Signal), parse_signal t q = Except.ok (some sig) →
      sig.symbol = sig.base ++ q :=
  fun t q sig h => (parse_signal_ok_some t q sig h).2

set_option maxRecDepth 8000 in
theorem c5_symbol_amended_witness :
    scenario_a_lower_signal.symbol = scenario_a_lower_signal.base ++ "usdt" :=
  c5_symbol_amended scenario_a_text "usdt" scenario_a_lower_signal (by rfl)

/-- C7: when the side-and-market token carries a quote asset differing
case-insensitively from the configured quote, the parse yields the
absent result. -/
theorem c7_quote_mismatch :
    ∀ (t q sw b qf : String), re_side_symbol t.toList = some (sw, b, qf) →
      py_upper qf ≠ py_upper q → parse_signal t q = Except.ok none := by
  intro t q sw b qf hss hq
  simp only [parse_signal]
  split
  · rfl
  split
  · rfl
  split
  · rfl
  split
  · rfl
  · rename_i sw2 b2 qf2 heq
    rw [hss] at heq
    simp only [Option.some.injEq, Prod.mk.injEq] at heq
    obtain ⟨h1, h2, h3⟩ := heq
    subst h1
    subst h2
    subst h3
    split
    · rfl
    · rename_i hcond
      exact absurd hq hcond

set_option maxRecDepth 8000 in
theorem c7_quote_mismatch_witness :
    parse_signal scenario_a_text "EUR" = Except.ok none :=
  c7_quote_mismatch scenario_a_text "EUR" "SHORT" "OL" "USDT" (by rfl) (by decide)

end

lemma field_parts_eq (parts : List String) (f : EmbedField) :
    field_parts parts f = parts ++ field_frag f := by
  unfold field_parts field_frag opt_frag
  by_cases h1 : f.name = "" <;> by_cases h2 : f.value = "" <;> simp [h1, h2]

lemma fields_foldl (fs : List EmbedField) :
    ∀ parts, fs.foldl field_parts parts = parts ++ fs.flatMap field_frag := by
  induction fs with
  | nil => intro parts; simp
  | cons f fs ih => intro parts; simp [field_parts_eq, ih]

lemma embed_parts_eq (parts : List String) (e : Embed) :
    embed_parts parts e = parts ++ embed_frag e := by
  unfold embed_parts embed_frag
  by_cases h1 : e.title = "" <;> by_cases h2 : e.description = "" <;>
    by_cases h3 : e.footer = "" <;> simp [fields_foldl, opt_frag, h1, h2, h3]

lemma embeds_foldl (es : List Embed) :
    ∀ parts, es.foldl embed_parts parts = parts ++ es.flatMap embed_frag := by
  induction es with
  | nil => intro parts; simp
  | cons e es ih => intro parts; simp [embed_parts_eq, ih]

lemma extract_parts_eq (msg : RawMessage) :
    extract_parts msg = spec_fragments msg := by
  unfold extract_parts spec_fragments
  by_cases h : msg.content = "" <;> simp [embeds_foldl, opt_frag, h]

lemma mem_opt_frag {s p : String} (hp : p ∈ opt_frag s) : p ≠ "" := by
  unfold opt_frag at hp
  split at hp
  · simp at hp
  · rename_i hs
    simp at hp
    exact hp ▸ hs

lemma spec_fragments_mem_ne (msg : RawMessage) :
    ∀ p ∈ spec_fragments msg, p ≠ "" := by
  intro p hp
  unfold spec_fragments at hp
  rcases List.mem_append.mp hp with h | h
  · exact mem_opt_frag h
  · rcases List.mem_flatMap.mp h with ⟨e, _, he⟩
    unfold embed_frag at he
    rcases List.mem_append.mp he with h4 | h4
    · rcases List.mem_append.mp h4 with h5 | h5
      · rcases List.mem_append.mp h5 with h6 | h6
        · exact mem_opt_frag h6
        · exact mem_opt_frag h6
      · rcases List.mem_flatMap.mp h5 with ⟨f, _, hf⟩
        unfold field_frag at hf
        rcases List.mem_append.mp hf with h7 | h7
        · exact mem_opt_frag h7
        · exact mem_opt_frag h7
    · exact mem_opt_frag h4

lemma filter_spec_fragments (msg : RawMessage) :
    (spec_fragments msg).filter (fun p => decide (p ≠ "")) = spec_fragments msg := by
  rw [List.filter_eq_self]
  intro a ha
  exact decide_eq_true (spec_fragments_mem_ne msg a ha)

/-- C9: extract_text collects exactly the specified fragments in order
(content; per embed title, description, field names and values in order,
footer), skips empty ones, joins them with the bar delimiter, and only
then entity-decodes, strips the mention, channel and emoji tokens, and
trims. -/
theorem c9_extract_text :
    ∀ msg : RawMessage, extract_text msg
      = clean_text (String.intercalate " | " (spec_fragments msg)) := by
  intro msg
  unfold extract_text
  rw [extract_parts_eq, filter_spec_fragments]
